import Mathlib

/-!
Verification of the jukebox Express API core: identifier validation,
playlist/track/association data model, and the seven route handlers,
modelled as pure functions over an explicit relational state.

Numbers are modelled as exact integers (`Nat`/`Int`); the JavaScript
`parseInt` / `Number.prototype.toString` pair is embedded over exact
integers, so floating-point rounding of astronomically large identifiers
is outside the model.
-/

namespace Jukebox

/-- JSON-like values as delivered by the body-parsing middleware
(`express.json()`).  `int` holds an integral number, `nonIntNum` stands
for any non-integral numeric value such as `1.5`. -/
inductive Json where
  | str (s : String)
  | int (n : Int)
  | nonIntNum
  | bool (b : Bool)
  | null
  | arr
  | obj
  deriving DecidableEq

/-- JavaScript truthiness of a JSON value (an absent field is handled by
`fieldTruthy` below). -/
def Json.truthy : Json → Bool
  | .str s => !s.isEmpty
  | .int n => n != 0
  | .nonIntNum => true
  | .bool b => b
  | .null => false
  | .arr => true
  | .obj => true

/-- JavaScript `Number.isInteger` on a JSON value. -/
def Json.isInt : Json → Bool
  | .int _ => true
  | _ => false

/-- The check `typeof v === "string"` on an optional JSON field. -/
def isStrField : Option Json → Bool
  | some (.str _) => true
  | _ => false

/-- Truthiness of an optional JSON field (`undefined` is falsy). -/
def fieldTruthy : Option Json → Bool
  | none => false
  | some j => j.truthy

/-- The string payload of an optional JSON field, used only under an
`isStrField` guard. -/
def strField : Option Json → String
  | some (.str s) => s
  | _ => ""

/-- Numeric value of a decimal digit character. -/
def charDigit (c : Char) : Nat := c.toNat - 48

/-- The decimal digit character for a value below ten. -/
def decChar (d : Nat) : Char := Char.ofNat (48 + d)

/-- Numeric value of a big-endian list of decimal digit characters. -/
def decValue (ds : List Char) : Nat := Nat.ofDigits 10 ((ds.map charDigit).reverse)

/-- Parse the leading run of decimal digits, as `parseInt` does after
sign handling; no digits at all yields `none` (JavaScript `NaN`). -/
def parseDigits (cs : List Char) : Option Nat :=
  let ds := cs.takeWhile Char.isDigit
  if ds.isEmpty then none else some (decValue ds)

/-- JavaScript `parseInt(s, 10)` restricted to exact integers: skip
leading whitespace, an optional sign, then the longest digit run;
`none` models `NaN`.  The full conversion of the parsed value to a
binary64 number is `jsParseIntFP` below; this exact-integer restriction
agrees with it whenever the digit run's value stays below 2 to the 53,
in particular on every identifier a serial column can assign, and is
the parse the handler embeddings use. -/
def jsParseInt (s : String) : Option Int :=
  match s.data.dropWhile Char.isWhitespace with
  | [] => none
  | c :: rest =>
    if c = '+' then (parseDigits rest).map (fun n => (n : Int))
    else if c = '-' then (parseDigits rest).map (fun n => -(n : Int))
    else (parseDigits (c :: rest)).map (fun n => (n : Int))

/-- Fuel-driven big-endian decimal rendering; the fuel is always chosen
at least as large as the number so the fuel case never triggers. -/
def toDecAux (fuel n : Nat) (acc : List Char) : List Char :=
  match fuel with
  | 0 => acc
  | fuel + 1 =>
    if n / 10 = 0 then decChar (n % 10) :: acc
    else toDecAux fuel (n / 10) (decChar (n % 10) :: acc)

/-- JavaScript `Number.prototype.toString` for a non-negative integer. -/
def jsNatToString (n : Nat) : String := String.mk (toDecAux (n + 1) n [])

/-- JavaScript `Number.prototype.toString` restricted to exact
integers; the full binary64 version is `jsNumToString` below, with
which it agrees on exactly representable values below 10 to the 21. -/
def jsIntToString (n : Int) : String :=
  if n < 0 then "-" ++ jsNatToString n.natAbs else jsNatToString n.toNat

/-- The validator `isValidId` of the source over exact integers: parse
with `parseInt`, require a strictly positive result whose canonical
rendering equals the input.  The full embedding including binary64
rounding is `isValidIdFP` below; the two agree on strings whose value
is below 2 to the 53 (see `isValidIdFP_print` and claim C3, which is
settled against `isValidIdFP`), and the handler embeddings use this
exact-integer restriction. -/
def isValidId (idString : String) : Bool :=
  match jsParseInt idString with
  | none => false
  | some id => decide (0 < id) && (jsIntToString id == idString)

/-- The integer a validated identifier string denotes. -/
def parseIdNat (s : String) : Nat :=
  match jsParseInt s with
  | some n => n.toNat
  | none => 0

/-- A canonical positive decimal string: nonempty, only digits, no
leading zero.  This is the spec-side characterisation the validator is
claimed to decide. -/
def canonicalPosIntString (s : String) : Prop :=
  s.data ≠ [] ∧ (∀ c ∈ s.data, c.isDigit = true) ∧ s.data.head? ≠ some '0'

instance (s : String) : Decidable (canonicalPosIntString s) := by
  unfold canonicalPosIntString
  infer_instance

/-- An integral binary64 value as produced by converting a parsed
mathematical integer to a JavaScript number: an exact integer or a
signed infinity. -/
inductive JsNum where
  | fin (n : Int)
  | posInf
  | negInf
  deriving DecidableEq

/-- Fuel-driven binary length; the fuel is always at least the number,
so the fuel case never triggers. -/
def bitLenAux : Nat → Nat → Nat
  | 0, _ => 0
  | fuel + 1, n => if n = 0 then 0 else bitLenAux fuel (n / 2) + 1

/-- Number of binary digits of a natural number. -/
def bitLen (n : Nat) : Nat := bitLenAux n n

/-- Round a nonnegative integer to the nearest binary64-representable
value: a 53-bit significand, round to nearest with ties to even, and
overflow to infinity when the rounded value reaches 2 to the 1024. -/
def jsRoundNat (n : Nat) : JsNum :=
  if n < 2 ^ 53 then .fin n
  else
    let k := bitLen n - 53
    let q := n / 2 ^ k
    let r := n % 2 ^ k
    let half := 2 ^ (k - 1)
    let q2 := if half < r || (r == half && q % 2 == 1) then q + 1 else q
    if q2 * 2 ^ k < 2 ^ 1024 then .fin (q2 * 2 ^ k) else .posInf

/-- Binary64 rounding of a negated magnitude. -/
def jsRoundNeg (n : Nat) : JsNum :=
  match jsRoundNat n with
  | .fin m => .fin (-m)
  | _ => .negInf

/-- JavaScript `parseInt(s, 10)` in full: the parsed mathematical
integer is converted to a binary64 number, so values of 2 to the 53 or
more round and astronomically large values become infinity.  `none`
models `NaN`. -/
def jsParseIntFP (s : String) : Option JsNum :=
  match s.data.dropWhile Char.isWhitespace with
  | [] => none
  | c :: rest =>
    if c = '+' then (parseDigits rest).map jsRoundNat
    else if c = '-' then (parseDigits rest).map jsRoundNeg
    else (parseDigits (c :: rest)).map jsRoundNat

/-- Exponential notation for an integral binary64 value of 10 to the 21
or more: the first significand digit, a dot and the remaining
significand digits when more than one digit remains after stripping
trailing zeros, then the exponent part.  The runtime renders the
shortest digit sequence reading back as the same binary64 value rather
than the exact digits rendered here; that difference starts strictly
after the first non-digit character, and `parseInt` stops reading at
that character, so it is invisible to the validator's round-trip
comparison. -/
def expNotation (x : Nat) : String :=
  let ds := (jsNatToString x).data
  let sig := (ds.reverse.dropWhile (fun c => c == '0')).reverse
  let tail := 'e' :: '+' :: (jsNatToString (ds.length - 1)).data
  match sig with
  | [] => String.mk ('0' :: tail)
  | [c] => String.mk (c :: tail)
  | c :: rest => String.mk (c :: '.' :: (rest ++ tail))

/-- JavaScript `Number.prototype.toString` for a nonnegative integral
binary64 value: plain decimal below 10 to the 21, exponential notation
from there on. -/
def jsNatDoubleToString (x : Nat) : String :=
  if x < 10 ^ 21 then jsNatToString x else expNotation x

/-- JavaScript `Number.prototype.toString` for a binary64 value arising
from `parseInt`. -/
def jsNumToString : JsNum → String
  | .fin n =>
    if n < 0 then "-" ++ jsNatDoubleToString n.natAbs else jsNatDoubleToString n.toNat
  | .posInf => "Infinity"
  | .negInf => "-Infinity"

/-- The comparison `id > 0` on a binary64 value; a positive infinity is
greater than zero. -/
def JsNum.isPos : JsNum → Bool
  | .fin n => decide (0 < n)
  | .posInf => true
  | .negInf => false

/-- The validator `isValidId` of the source in full, with binary64
rounding modelled: parse, require a positive value, and require the
canonical rendering of the value to equal the input. -/
def isValidIdFP (idString : String) : Bool :=
  match jsParseIntFP idString with
  | none => false
  | some v => v.isPos && (jsNumToString v == idString)

/-- A row of the `tracks` table. -/
structure Track where
  id : Nat
  name : String
  duration_ms : Nat
  deriving DecidableEq

/-- A row of the `playlists` table. -/
structure Playlist where
  id : Nat
  name : String
  description : String
  deriving DecidableEq

/-- A row of the `playlists_tracks` junction table. -/
structure PlaylistTrack where
  id : Nat
  playlist_id : Nat
  track_id : Nat
  deriving DecidableEq

/-- The persisted state: the three tables plus the serial counters that
assign fresh identifiers. -/
structure DB where
  tracks : List Track
  playlists : List Playlist
  playlists_tracks : List PlaylistTrack
  nextPlaylistId : Nat
  nextAssocId : Nat
  deriving DecidableEq

/-- Ordering relation used by `ORDER BY id` over tracks. -/
def trackLe (a b : Track) : Prop := a.id ≤ b.id

instance : DecidableRel trackLe := fun a b => Nat.decLe a.id b.id

instance : IsTotal Track trackLe := ⟨fun a b => Nat.le_total a.id b.id⟩

instance : IsTrans Track trackLe := ⟨fun _ _ _ => Nat.le_trans⟩

/-- Ordering relation used by `ORDER BY id` over playlists. -/
def playlistLe (a b : Playlist) : Prop := a.id ≤ b.id

instance : DecidableRel playlistLe := fun a b => Nat.decLe a.id b.id

instance : IsTotal Playlist playlistLe := ⟨fun a b => Nat.le_total a.id b.id⟩

instance : IsTrans Playlist playlistLe := ⟨fun _ _ _ => Nat.le_trans⟩

/-- Query `SELECT ... FROM tracks ORDER BY id`. -/
def sortTracks (ts : List Track) : List Track := List.insertionSort trackLe ts

/-- Query `SELECT ... FROM playlists ORDER BY id`. -/
def sortPlaylists (ps : List Playlist) : List Playlist := List.insertionSort playlistLe ps

/-- Query `SELECT ... FROM tracks WHERE id = $1`. -/
def trackRows (db : DB) (tid : Nat) : List Track :=
  db.tracks.filter (fun t => t.id == tid)

/-- Query `SELECT ... FROM playlists WHERE id = $1`. -/
def playlistRows (db : DB) (pid : Nat) : List Playlist :=
  db.playlists.filter (fun p => p.id == pid)

/-- Query `SELECT ... FROM playlists_tracks WHERE playlist_id = $1 AND track_id = $2`:
does a row for the pair exist. -/
def pairExists (db : DB) (pid tid : Nat) : Bool :=
  db.playlists_tracks.any (fun a => a.playlist_id == pid && a.track_id == tid)

/-- Number of association rows persisted for a (playlist, track) pair. -/
def pairCount (db : DB) (pid tid : Nat) : Nat :=
  (db.playlists_tracks.filter (fun a => a.playlist_id == pid && a.track_id == tid)).length

/-- The `INNER JOIN` of tracks with the associations of playlist `pid`,
`ORDER BY t.id`: one row per matching (track, association) pair. -/
def joinRows (db : DB) (pid : Nat) : List Track :=
  sortTracks (db.tracks.flatMap (fun t =>
    (db.playlists_tracks.filter (fun a => a.playlist_id == pid && a.track_id == t.id)).map
      (fun _ => t)))

/-- HTTP response bodies produced by the handlers. -/
inductive Body where
  | tracks (ts : List Track)
  | track (t : Track)
  | playlists (ps : List Playlist)
  | playlist (p : Playlist)
  | assoc (a : PlaylistTrack)
  | error (msg : String)
  deriving DecidableEq

/-- An HTTP response: status code and JSON body. -/
structure Response where
  status : Nat
  body : Body
  deriving DecidableEq

/-- Helper `sendError` from the source: a status with an error-message body. -/
def sendError (status : Nat) (message : String) : Response := ⟨status, .error message⟩

/-- Handler for `GET /tracks`. -/
def getTracks (db : DB) : Response × DB :=
  (⟨200, .tracks (sortTracks db.tracks)⟩, db)

/-- Handler for `GET /tracks/:id`. -/
def getTrackById (idString : String) (db : DB) : Response × DB :=
  if !isValidId idString then
    (sendError 400 "Track ID must be a valid positive integer", db)
  else
    match trackRows db (parseIdNat idString) with
    | [] => (sendError 404 "Track not found", db)
    | t :: _ => (⟨200, .track t⟩, db)

/-- Handler for `GET /playlists`. -/
def getPlaylists (db : DB) : Response × DB :=
  (⟨200, .playlists (sortPlaylists db.playlists)⟩, db)

/-- The parsed body of a `POST /playlists` request; each field is
`none` when absent. -/
structure PlaylistBody where
  name : Option Json
  description : Option Json
  deriving DecidableEq

/-- Handler for `POST /playlists`: body presence, then truthiness of both fields,
then string types, then the insert with a fresh serial identifier. -/
def postPlaylists (body : Option PlaylistBody) (db : DB) : Response × DB :=
  match body with
  | none => (sendError 400 "Request body is required", db)
  | some b =>
    if !fieldTruthy b.name || !fieldTruthy b.description then
      (sendError 400 "Name and description are required fields", db)
    else if !isStrField b.name || !isStrField b.description then
      (sendError 400 "Name and description must be strings", db)
    else
      let p : Playlist := ⟨db.nextPlaylistId, strField b.name, strField b.description⟩
      (⟨201, .playlist p⟩,
        { db with playlists := db.playlists ++ [p], nextPlaylistId := db.nextPlaylistId + 1 })

/-- Handler for `GET /playlists/:id`. -/
def getPlaylistById (idString : String) (db : DB) : Response × DB :=
  if !isValidId idString then
    (sendError 400 "Playlist ID must be a valid positive integer", db)
  else
    match playlistRows db (parseIdNat idString) with
    | [] => (sendError 404 "Playlist not found", db)
    | p :: _ => (⟨200, .playlist p⟩, db)

/-- Handler for `GET /playlists/:id/tracks`. -/
def getPlaylistTracks (idString : String) (db : DB) : Response × DB :=
  if !isValidId idString then
    (sendError 400 "Playlist ID must be a valid positive integer", db)
  else
    if (playlistRows db (parseIdNat idString)).isEmpty then
      (sendError 404 "Playlist not found", db)
    else
      (⟨200, .tracks (joinRows db (parseIdNat idString))⟩, db)

/-- A storage-layer error as surfaced by the driver: a SQLSTATE code. -/
structure DbError where
  code : String
  deriving DecidableEq

/-- Query `INSERT INTO playlists_tracks ... RETURNING ...`: fails with
SQLSTATE 23505 exactly when the uniqueness constraint on the
(playlist, track) pair is violated. -/
def insertAssociation (db : DB) (pid tid : Nat) : Except DbError (PlaylistTrack × DB) :=
  if pairExists db pid tid then .error ⟨"23505"⟩
  else
    let a : PlaylistTrack := ⟨db.nextAssocId, pid, tid⟩
    .ok (a, { db with playlists_tracks := db.playlists_tracks ++ [a],
                      nextAssocId := db.nextAssocId + 1 })

/-- The inner catch of the insert in `POST /playlists/:id/tracks`:
code 23505 becomes a 400 duplicate-membership response, anything else is
rethrown into the outer catch and surfaces as the handler's 500. -/
def classifyInsertFailure (e : DbError) : Response :=
  if e.code == "23505" then sendError 400 "Track is already in this playlist"
  else sendError 500 "Internal server error while adding track to playlist"

/-- The parsed body of a `POST /playlists/:id/tracks` request. -/
structure TrackBody where
  trackId : Option Json
  deriving DecidableEq

/-- Handler for `POST /playlists/:id/tracks`: playlist id format, body presence,
`trackId` presence, `trackId` positive-integer check, playlist
existence, track existence, then the insert. -/
def postPlaylistTracks (idString : String) (body : Option TrackBody) (db : DB) :
    Response × DB :=
  if !isValidId idString then
    (sendError 400 "Playlist ID must be a valid positive integer", db)
  else
    match body with
    | none => (sendError 400 "Request body is required", db)
    | some b =>
      match b.trackId with
      | none => (sendError 400 "trackId is required in request body", db)
      | some .null => (sendError 400 "trackId is required in request body", db)
      | some (.int n) =>
        if n ≤ 0 then (sendError 400 "trackId must be a positive integer", db)
        else
          if (playlistRows db (parseIdNat idString)).isEmpty then
            (sendError 404 "Playlist not found", db)
          else if (trackRows db n.toNat).isEmpty then
            (sendError 400 "Track does not exist", db)
          else
            match insertAssociation db (parseIdNat idString) n.toNat with
            | .error e => (classifyInsertFailure e, db)
            | .ok (a, db2) => (⟨201, .assoc a⟩, db2)
      | some _ => (sendError 400 "trackId must be a positive integer", db)

/-- Well-formedness of the persisted state: primary keys are unique, the
pair constraint of `playlists_tracks` holds, identifiers are positive,
and the serial counters are ahead of every assigned identifier. -/
def DB.WF (db : DB) : Prop :=
  (db.tracks.map Track.id).Nodup ∧
  (db.playlists.map Playlist.id).Nodup ∧
  (db.playlists_tracks.map (fun a => (a.playlist_id, a.track_id))).Nodup ∧
  (∀ t ∈ db.tracks, 0 < t.id) ∧
  (∀ p ∈ db.playlists, 0 < p.id) ∧
  (∀ a ∈ db.playlists_tracks, a.id < db.nextAssocId) ∧
  (∀ p ∈ db.playlists, p.id < db.nextPlaylistId) ∧
  0 < db.nextPlaylistId ∧
  0 < db.nextAssocId

instance (db : DB) : Decidable db.WF := by
  unfold DB.WF
  infer_instance

/-- The `POST /playlists/:id/tracks` request for playlist `pid` and a
body carrying integer `trackId` `tid`, with the identifier rendered
canonically in the path. -/
def addTrackReq (db : DB) (pid tid : Nat) : Response × DB :=
  postPlaylistTracks (jsNatToString pid) (some ⟨some (.int (tid : Int))⟩) db

/-- Claimed outcome of adding the same track to the same playlist
twice, starting from a state where the pair is not yet associated:
201 with a fresh association identifier, then 400 with the
duplicate-membership message, and exactly one persisted association for
the pair afterwards. -/
def AddTrackTwiceOutcome (db : DB) (pid tid : Nat) : Prop :=
  (addTrackReq db pid tid).1 = ⟨201, .assoc ⟨db.nextAssocId, pid, tid⟩⟩ ∧
  (∀ a ∈ db.playlists_tracks, a.id ≠ db.nextAssocId) ∧
  (addTrackReq (addTrackReq db pid tid).2 pid tid).1 =
    sendError 400 "Track is already in this playlist" ∧
  pairCount (addTrackReq (addTrackReq db pid tid).2 pid tid).2 pid tid = 1

/-- Claimed outcome of `GET /playlists/:id/tracks` for a well-formed
identifier: 404 when the playlist is absent, otherwise 200 with exactly
the associated tracks sorted by identifier, and an empty array when the
playlist has no associations. -/
def ListTracksOutcome (db : DB) (pid : Nat) : Prop :=
  (playlistRows db pid = [] →
    getPlaylistTracks (jsNatToString pid) db = (sendError 404 "Playlist not found", db)) ∧
  (playlistRows db pid ≠ [] →
    getPlaylistTracks (jsNatToString pid) db =
      (⟨200, .tracks (sortTracks (db.tracks.filter (fun t => pairExists db pid t.id)))⟩, db)) ∧
  List.Sorted trackLe (sortTracks (db.tracks.filter (fun t => pairExists db pid t.id))) ∧
  (playlistRows db pid ≠ [] → (∀ a ∈ db.playlists_tracks, a.playlist_id ≠ pid) →
    getPlaylistTracks (jsNatToString pid) db = (⟨200, .tracks []⟩, db))

/-- Claimed outcome of the fixed validation order of
`POST /playlists/:id/tracks`: each failing check answers its own 400
(or the 404 for a missing playlist) with the state unchanged and the
response independent of the persisted state for the pure validation
checks, and earlier checks shadow later ones. -/
def AddTrackChecksOutcome (s : String) (db : DB) : Prop :=
  (∀ body : Option TrackBody, isValidId s = false →
    postPlaylistTracks s body db =
      (sendError 400 "Playlist ID must be a valid positive integer", db)) ∧
  (isValidId s = true →
    postPlaylistTracks s none db = (sendError 400 "Request body is required", db)) ∧
  (isValidId s = true →
    postPlaylistTracks s (some ⟨none⟩) db =
      (sendError 400 "trackId is required in request body", db)) ∧
  (isValidId s = true →
    postPlaylistTracks s (some ⟨some .null⟩) db =
      (sendError 400 "trackId is required in request body", db)) ∧
  (∀ j : Json, isValidId s = true → j.isInt = false → j ≠ .null →
    postPlaylistTracks s (some ⟨some j⟩) db =
      (sendError 400 "trackId must be a positive integer", db)) ∧
  (∀ n : Int, isValidId s = true → n ≤ 0 →
    postPlaylistTracks s (some ⟨some (.int n)⟩) db =
      (sendError 400 "trackId must be a positive integer", db)) ∧
  (∀ n : Int, isValidId s = true → 0 < n →
    (playlistRows db (parseIdNat s)).isEmpty = true →
    postPlaylistTracks s (some ⟨some (.int n)⟩) db =
      (sendError 404 "Playlist not found", db)) ∧
  (∀ n : Int, isValidId s = true → 0 < n →
    (playlistRows db (parseIdNat s)).isEmpty = false →
    (trackRows db n.toNat).isEmpty = true →
    postPlaylistTracks s (some ⟨some (.int n)⟩) db =
      (sendError 400 "Track does not exist", db))

/-- A sample track used to instantiate the general theorems. -/
def tw : Track := ⟨1, "Bohemian Rhapsody", 355000⟩

/-- A second sample track. -/
def tw2 : Track := ⟨2, "Yesterday", 125000⟩

/-- A sample playlist used to instantiate the general theorems. -/
def pw : Playlist := ⟨1, "Favorites", "My favorite songs"⟩

/-- A sample well-formed state: two tracks, one playlist, no
associations. -/
def dbw : DB := ⟨[tw2, tw], [pw], [], 2, 1⟩

/-- A sample well-formed state containing one association. -/
def dbw2 : DB := ⟨[tw2, tw], [pw], [⟨1, 1, 1⟩], 2, 2⟩

/- ======================================================================
Character-level facts about decimal digits.
====================================================================== -/

theorem isDigit_iff {c : Char} : c.isDigit = true ↔ 48 ≤ c.toNat ∧ c.toNat ≤ 57 := by
  simp [Char.isDigit, UInt32.le_def, BitVec.le_def, Char.toNat, UInt32.toNat,
    decide_eq_true_iff]

theorem decChar_toNat {d : Nat} (h : d < 10) : (decChar d).toNat = 48 + d := by
  unfold decChar
  interval_cases d <;> decide

theorem decChar_isDigit {d : Nat} (h : d < 10) : (decChar d).isDigit = true := by
  rw [isDigit_iff, decChar_toNat h]
  omega

theorem charDigit_lt_ten {c : Char} (h : c.isDigit = true) : charDigit c < 10 := by
  rw [isDigit_iff] at h
  unfold charDigit
  omega

theorem charDigit_decChar {d : Nat} (h : d < 10) : charDigit (decChar d) = d := by
  unfold charDigit
  rw [decChar_toNat h]
  omega

theorem decChar_charDigit {c : Char} (h : c.isDigit = true) : decChar (charDigit c) = c := by
  rw [isDigit_iff] at h
  unfold decChar charDigit
  rw [Nat.add_sub_cancel' h.1]
  exact Char.ofNat_toNat c

theorem charDigit_eq_zero_iff {c : Char} (h : c.isDigit = true) :
    charDigit c = 0 ↔ c = '0' := by
  constructor
  · intro h0
    have h1 := decChar_charDigit h
    rw [h0] at h1
    rw [← h1]
    decide
  · intro hc
    subst hc
    decide

theorem decChar_eq_zero_iff {d : Nat} (h : d < 10) : decChar d = '0' ↔ d = 0 := by
  constructor
  · intro h0
    have h1 := charDigit_decChar h
    rw [h0] at h1
    rw [← h1]
    decide
  · intro h0
    subst h0
    decide

theorem isDigit_not_whitespace {c : Char} (h : c.isDigit = true) : c.isWhitespace = false := by
  rw [isDigit_iff] at h
  rcases h with ⟨h1, h2⟩
  simp only [Char.isWhitespace, Bool.or_eq_false_iff, decide_eq_false_iff_not]
  refine ⟨⟨⟨?_, ?_⟩, ?_⟩, ?_⟩ <;> intro hEq <;> subst hEq <;> simp_all

theorem isDigit_ne_plus {c : Char} (h : c.isDigit = true) : c ≠ '+' := by
  intro hEq
  rw [hEq] at h
  exact absurd h (by decide)

theorem isDigit_ne_minus {c : Char} (h : c.isDigit = true) : c ≠ '-' := by
  intro hEq
  rw [hEq] at h
  exact absurd h (by decide)

/- ======================================================================
Decimal printing: `toDecAux` agrees with `Nat.digits`.
====================================================================== -/

theorem toDecAux_eq :
    ∀ n : Nat, 0 < n → ∀ fuel : Nat, n ≤ fuel → ∀ acc : List Char,
      toDecAux fuel n acc = ((Nat.digits 10 n).reverse.map decChar) ++ acc := by
  intro n
  induction n using Nat.strong_induction_on with
  | _ n ih =>
    intro hn fuel hf acc
    cases fuel with
    | zero => omega
    | succ fuel =>
      rw [toDecAux]
      by_cases h10 : n / 10 = 0
      · rw [if_pos h10, Nat.digits_def' (b := 10) (by norm_num) hn, h10, Nat.digits_zero]
        simp
      · rw [if_neg h10]
        have hlt : n / 10 < n := Nat.div_lt_self hn (by norm_num)
        rw [ih (n / 10) hlt (Nat.pos_of_ne_zero h10) fuel (by omega) _]
        rw [Nat.digits_def' (b := 10) (by norm_num) hn]
        simp

theorem jsNatToString_data {n : Nat} (hn : 0 < n) :
    (jsNatToString n).data = (Nat.digits 10 n).reverse.map decChar := by
  unfold jsNatToString
  rw [toDecAux_eq n hn (n + 1) (by omega) []]
  simp

theorem print_canonical {n : Nat} (hn : 0 < n) :
    canonicalPosIntString (jsNatToString n) := by
  have hdata := jsNatToString_data hn
  have hne : Nat.digits 10 n ≠ [] := Nat.digits_ne_nil_iff_ne_zero.mpr (by omega)
  have hrev : (Nat.digits 10 n).reverse ≠ [] := by simpa using hne
  refine ⟨?_, ?_, ?_⟩
  · rw [hdata]
    simpa using hne
  · rw [hdata]
    intro c hc
    simp only [List.mem_map, List.mem_reverse] at hc
    obtain ⟨d, hd, rfl⟩ := hc
    exact decChar_isDigit (Nat.digits_lt_base (by norm_num) hd)
  · rw [hdata]
    obtain ⟨d, rest, hcons⟩ := List.exists_cons_of_ne_nil hrev
    rw [hcons]
    simp only [List.map_cons, List.head?_cons, ne_eq, Option.some.injEq]
    have hd_mem : d ∈ Nat.digits 10 n := by
      have hdm : d ∈ (Nat.digits 10 n).reverse := by
        rw [hcons]
        exact List.mem_cons_self _ _
      simpa using hdm
    have hd_lt : d < 10 := Nat.digits_lt_base (by norm_num) hd_mem
    have hlast? : (Nat.digits 10 n).getLast? = some d := by
      rw [← List.head?_reverse, hcons, List.head?_cons]
    have hd_ne : d ≠ 0 := by
      intro h0
      apply Nat.getLast_digit_ne_zero 10 (m := n) (by omega)
      rw [List.getLast_eq_iff_getLast_eq_some, hlast?, h0]
    intro h0
    exact hd_ne ((decChar_eq_zero_iff hd_lt).mp h0)

/- ======================================================================
Decimal parsing: canonical strings parse back to their value.
====================================================================== -/

theorem takeWhile_isDigit_self {ds : List Char} (h : ∀ c ∈ ds, c.isDigit = true) :
    ds.takeWhile Char.isDigit = ds := by
  rw [List.takeWhile_eq_self_iff]
  simpa using h

theorem jsParseInt_canonical {ds : List Char} (hne : ds ≠ [])
    (hdig : ∀ c ∈ ds, c.isDigit = true) :
    jsParseInt (String.mk ds) = some ((decValue ds : Nat) : Int) := by
  obtain ⟨c, rest, rfl⟩ := List.exists_cons_of_ne_nil hne
  have hc : c.isDigit = true := hdig c (List.mem_cons_self _ _)
  have hw : c.isWhitespace = false := isDigit_not_whitespace hc
  have hplus : ¬(c = '+') := isDigit_ne_plus hc
  have hminus : ¬(c = '-') := isDigit_ne_minus hc
  unfold jsParseInt
  simp only [List.dropWhile_cons, hw, Bool.false_eq_true, if_false, if_neg hplus,
    if_neg hminus]
  unfold parseDigits
  rw [takeWhile_isDigit_self hdig]
  simp

theorem digits_decValue {ds : List Char} (hne : ds ≠ [])
    (hdig : ∀ c ∈ ds, c.isDigit = true) (hzero : ds.head? ≠ some '0') :
    Nat.digits 10 (decValue ds) = (ds.map charDigit).reverse := by
  unfold decValue
  apply Nat.digits_ofDigits 10 (by norm_num)
  · intro l hl
    simp only [List.mem_reverse, List.mem_map] at hl
    obtain ⟨c, hc, rfl⟩ := hl
    exact charDigit_lt_ten (hdig c hc)
  · intro h
    obtain ⟨c, rest, rfl⟩ := List.exists_cons_of_ne_nil hne
    rw [List.getLast_reverse]
    simp only [List.map_cons, List.head_cons]
    intro h0
    have hc0 : c = '0' :=
      (charDigit_eq_zero_iff (hdig c (List.mem_cons_self _ _))).mp h0
    rw [hc0] at hzero
    simp at hzero

theorem decValue_pos {ds : List Char} (hne : ds ≠ [])
    (hdig : ∀ c ∈ ds, c.isDigit = true) (hzero : ds.head? ≠ some '0') :
    0 < decValue ds := by
  rcases Nat.eq_zero_or_pos (decValue ds) with h | h
  · exfalso
    have hd := digits_decValue hne hdig hzero
    rw [h, Nat.digits_zero] at hd
    have hmap : ds.map charDigit = [] := by
      have := hd.symm
      simpa using this
    rw [List.map_eq_nil_iff] at hmap
    exact hne hmap
  · exact h

theorem map_decChar_charDigit {ds : List Char} (hdig : ∀ c ∈ ds, c.isDigit = true) :
    ds.map (fun c => decChar (charDigit c)) = ds := by
  induction ds with
  | nil => rfl
  | cons c rest ih =>
    simp only [List.map_cons, List.cons.injEq]
    constructor
    · exact decChar_charDigit (hdig c (List.mem_cons_self _ _))
    · exact ih (fun x hx => hdig x (List.mem_cons_of_mem _ hx))

theorem map_charDigit_decChar {L : List Nat} (h : ∀ d ∈ L, d < 10) :
    (L.map decChar).map charDigit = L := by
  induction L with
  | nil => rfl
  | cons d rest ih =>
    simp only [List.map_cons, List.cons.injEq]
    constructor
    · exact charDigit_decChar (h d (List.mem_cons_self _ _))
    · exact ih (fun x hx => h x (List.mem_cons_of_mem _ hx))

theorem jsNatToString_decValue {ds : List Char} (hne : ds ≠ [])
    (hdig : ∀ c ∈ ds, c.isDigit = true) (hzero : ds.head? ≠ some '0') :
    jsNatToString (decValue ds) = String.mk ds := by
  have hpos := decValue_pos hne hdig hzero
  have hdata := jsNatToString_data hpos
  rw [digits_decValue hne hdig hzero, List.reverse_reverse, List.map_map] at hdata
  have hmap : ds.map (decChar ∘ charDigit) = ds := by
    have := map_decChar_charDigit hdig
    simpa [Function.comp] using this
  rw [hmap] at hdata
  exact congrArg String.mk hdata

theorem jsParseInt_print {n : Nat} (hn : 0 < n) :
    jsParseInt (jsNatToString n) = some (n : Int) := by
  obtain ⟨hne, hdig, hzero⟩ := print_canonical hn
  have h1 : jsParseInt (jsNatToString n) = some ((decValue (jsNatToString n).data : Nat) : Int) :=
    jsParseInt_canonical hne hdig
  rw [h1]
  simp only [Option.some.injEq, Int.natCast_inj]
  unfold decValue
  rw [jsNatToString_data hn, List.map_map]
  have hmap : (Nat.digits 10 n).reverse.map (charDigit ∘ decChar) = (Nat.digits 10 n).reverse := by
    have hlt : ∀ d ∈ (Nat.digits 10 n).reverse, d < 10 := by
      intro d hd
      exact Nat.digits_lt_base (by norm_num) (by simpa using hd)
    have := map_charDigit_decChar (L := (Nat.digits 10 n).reverse) hlt
    simpa [Function.comp] using this
  rw [hmap, List.reverse_reverse, Nat.ofDigits_digits]

theorem isValidId_print {n : Nat} (hn : 0 < n) : isValidId (jsNatToString n) = true := by
  unfold isValidId
  rw [jsParseInt_print hn]
  have h1 : (0 : Int) < (n : Int) := by exact_mod_cast hn
  have h2 : jsIntToString (n : Int) = jsNatToString n := by
    unfold jsIntToString
    rw [if_neg (by omega), Int.toNat_ofNat]
  simp [h1, h2]

theorem parseIdNat_print {n : Nat} (hn : 0 < n) : parseIdNat (jsNatToString n) = n := by
  unfold parseIdNat
  rw [jsParseInt_print hn]
  simp

theorem isValidId_iff_canonical (s : String) :
    isValidId s = true ↔ canonicalPosIntString s := by
  constructor
  · intro h
    unfold isValidId at h
    cases hp : jsParseInt s with
    | none => rw [hp] at h; simp at h
    | some id =>
      rw [hp] at h
      simp only [Bool.and_eq_true, decide_eq_true_eq] at h
      obtain ⟨hpos, hbeq⟩ := h
      have hs : jsIntToString id = s := eq_of_beq hbeq
      have hid : jsIntToString id = jsNatToString id.toNat := by
        unfold jsIntToString
        rw [if_neg (by omega)]
      rw [hid] at hs
      rw [← hs]
      exact print_canonical (by omega)
  · rintro ⟨hne, hdig, hzero⟩
    have h1 : jsParseInt s = some ((decValue s.data : Nat) : Int) :=
      jsParseInt_canonical hne hdig
    have hpos := decValue_pos hne hdig hzero
    have h2 : jsIntToString ((decValue s.data : Nat) : Int) = s := by
      unfold jsIntToString
      rw [if_neg (by omega), Int.toNat_ofNat]
      exact jsNatToString_decValue hne hdig hzero
    unfold isValidId
    rw [h1]
    have h3 : (0 : Int) < ((decValue s.data : Nat) : Int) := by exact_mod_cast hpos
    simp [h2, h3]

/- ======================================================================
Binary64 rounding: behaviour of the full validator model.
====================================================================== -/

theorem dropWhile_append_singleton {p : Char → Bool} {l : List Char} {a : Char}
    (ha : p a = false) :
    (l ++ [a]).dropWhile p = l.dropWhile p ++ [a] := by
  rw [List.dropWhile_append]
  by_cases h : (l.dropWhile p).isEmpty
  · rw [if_pos h]
    rw [List.isEmpty_iff] at h
    rw [h]
    simp [List.dropWhile_cons, ha]
  · rw [if_neg h]

theorem jsRoundNat_small {n : Nat} (h : n < 2 ^ 53) : jsRoundNat n = .fin n := by
  unfold jsRoundNat
  rw [if_pos h]

theorem jsParseIntFP_canonical {ds : List Char} (hne : ds ≠ [])
    (hdig : ∀ c ∈ ds, c.isDigit = true) :
    jsParseIntFP (String.mk ds) = some (jsRoundNat (decValue ds)) := by
  obtain ⟨c, rest, rfl⟩ := List.exists_cons_of_ne_nil hne
  have hc : c.isDigit = true := hdig c (List.mem_cons_self _ _)
  have hw : c.isWhitespace = false := isDigit_not_whitespace hc
  have hplus : ¬(c = '+') := isDigit_ne_plus hc
  have hminus : ¬(c = '-') := isDigit_ne_minus hc
  unfold jsParseIntFP
  simp only [List.dropWhile_cons, hw, Bool.false_eq_true, if_false, if_neg hplus,
    if_neg hminus]
  unfold parseDigits
  rw [takeWhile_isDigit_self hdig]
  simp

theorem jsParseIntFP_digit_cons {c : Char} {t : List Char} (hc : c.isDigit = true)
    (ht : t.takeWhile Char.isDigit = []) :
    jsParseIntFP (String.mk (c :: t)) = some (jsRoundNat (charDigit c)) := by
  have hw : c.isWhitespace = false := isDigit_not_whitespace hc
  have hplus : ¬(c = '+') := isDigit_ne_plus hc
  have hminus : ¬(c = '-') := isDigit_ne_minus hc
  unfold jsParseIntFP
  simp only [List.dropWhile_cons, hw, Bool.false_eq_true, if_false, if_neg hplus,
    if_neg hminus]
  unfold parseDigits
  simp only [List.takeWhile_cons, hc, if_true, ht]
  simp [decValue, Nat.ofDigits_cons, Nat.ofDigits_nil]

theorem jsParseIntFP_expNotation {x : Nat} (hx : 0 < x) :
    ∃ d : Nat, d < 10 ∧ jsParseIntFP (expNotation x) = some (jsRoundNat d) := by
  obtain ⟨hne, hdig, hzero⟩ := print_canonical hx
  obtain ⟨d0, ds', hds⟩ := List.exists_cons_of_ne_nil hne
  have hd0 : d0.isDigit = true := hdig d0 (by rw [hds]; exact List.mem_cons_self _ _)
  have hd0z : (d0 == '0') = false := by
    rw [hds] at hzero
    simp only [List.head?_cons, ne_eq, Option.some.injEq] at hzero
    simpa using hzero
  have hsig : ((jsNatToString x).data.reverse.dropWhile (fun c => c == '0')).reverse =
      d0 :: (ds'.reverse.dropWhile (fun c => c == '0')).reverse := by
    rw [hds, List.reverse_cons,
      dropWhile_append_singleton (p := fun c => c == '0') hd0z, List.reverse_append]
    simp
  refine ⟨charDigit d0, charDigit_lt_ten hd0, ?_⟩
  simp only [expNotation]
  rw [hsig]
  cases hrest : (ds'.reverse.dropWhile (fun c => c == '0')).reverse with
  | nil =>
    exact jsParseIntFP_digit_cons hd0 (List.takeWhile_cons_of_neg (by decide))
  | cons y ys =>
    exact jsParseIntFP_digit_cons hd0 (List.takeWhile_cons_of_neg (by decide))

theorem decValue_print {n : Nat} (hn : 0 < n) : decValue (jsNatToString n).data = n := by
  unfold decValue
  rw [jsNatToString_data hn, List.map_map]
  have hlt : ∀ d ∈ (Nat.digits 10 n).reverse, d < 10 := by
    intro d hd
    exact Nat.digits_lt_base (by norm_num) (by simpa using hd)
  have hmap : (Nat.digits 10 n).reverse.map (charDigit ∘ decChar) =
      (Nat.digits 10 n).reverse := by
    have h2 := map_charDigit_decChar hlt
    simpa [Function.comp] using h2
  rw [hmap, List.reverse_reverse, Nat.ofDigits_digits]

theorem isValidIdFP_canonical_small {s : String} (hc : canonicalPosIntString s)
    (hlt : decValue s.data < 2 ^ 53) : isValidIdFP s = true := by
  obtain ⟨hne, hdig, hzero⟩ := hc
  have hpos := decValue_pos hne hdig hzero
  have h1 : jsParseIntFP s = some (jsRoundNat (decValue s.data)) :=
    jsParseIntFP_canonical hne hdig
  unfold isValidIdFP
  rw [h1, jsRoundNat_small hlt]
  have h2 : jsNumToString (.fin ((decValue s.data : Nat) : Int)) = s := by
    simp only [jsNumToString]
    rw [if_neg (by omega)]
    simp only [Int.toNat_ofNat]
    unfold jsNatDoubleToString
    rw [if_pos (lt_of_lt_of_le hlt (by norm_num))]
    exact jsNatToString_decValue hne hdig hzero
  simp only [JsNum.isPos, h2, beq_self_eq_true, Bool.and_true, decide_eq_true_eq]
  exact_mod_cast hpos

theorem isValidIdFP_accept_canonical {s : String} (h : isValidIdFP s = true) :
    canonicalPosIntString s := by
  unfold isValidIdFP at h
  cases hp : jsParseIntFP s with
  | none => rw [hp] at h; simp at h
  | some v =>
    rw [hp] at h
    simp only [Bool.and_eq_true] at h
    obtain ⟨hguard, hbeq⟩ := h
    have hs : jsNumToString v = s := eq_of_beq hbeq
    cases v with
    | negInf => simp [JsNum.isPos] at hguard
    | posInf =>
      exfalso
      rw [← hs] at hp
      have h2 : jsParseIntFP (jsNumToString .posInf) = none := by decide
      rw [h2] at hp
      exact Option.noConfusion hp
    | fin n =>
      have hn : (0 : Int) < n := by
        simpa [JsNum.isPos, decide_eq_true_eq] using hguard
      have hsx : jsNumToString (.fin n) = jsNatDoubleToString n.toNat := by
        simp only [jsNumToString]
        rw [if_neg (by omega)]
      by_cases hbig : n.toNat < 10 ^ 21
      · rw [hsx] at hs
        unfold jsNatDoubleToString at hs
        rw [if_pos hbig] at hs
        rw [← hs]
        exact print_canonical (by omega)
      · exfalso
        rw [hsx] at hs
        unfold jsNatDoubleToString at hs
        rw [if_neg hbig] at hs
        rw [← hs] at hp
        obtain ⟨d, hd10, hparse⟩ := jsParseIntFP_expNotation (x := n.toNat) (by omega)
        rw [hparse] at hp
        rw [jsRoundNat_small (lt_of_lt_of_le hd10 (by norm_num))] at hp
        simp only [Option.some.injEq, JsNum.fin.injEq] at hp
        have h21 : (10 : Nat) ^ 21 ≤ n.toNat := Nat.le_of_not_lt hbig
        have hlit : (10 : Nat) ^ 21 = 1000000000000000000000 := by norm_num
        rw [hlit] at h21
        omega

theorem isValidIdFP_print {n : Nat} (h0 : 0 < n) (h53 : n < 2 ^ 53) :
    isValidIdFP (jsNatToString n) = true := by
  apply isValidIdFP_canonical_small (print_canonical h0)
  rw [decValue_print h0]
  exact h53

/- ======================================================================
Sorting machinery: listing by ascending identifier is insensitive to
insertion order when identifiers are unique.
====================================================================== -/

theorem pairwise_key_lt {α : Type} {f : α → Nat} {l : List α}
    (hs : l.Pairwise (fun a b => f a ≤ f b)) (hn : (l.map f).Nodup) :
    l.Pairwise (fun a b => f a < f b) := by
  have hp : l.Pairwise (fun a b => f a ≠ f b) := by
    rw [List.Nodup, List.pairwise_map] at hn
    exact hn
  exact (hs.and hp).imp (fun h => Nat.lt_of_le_of_ne h.1 h.2)

theorem eq_of_perm_of_sorted_key {α : Type} {f : α → Nat} {l1 l2 : List α}
    (hperm : l1.Perm l2) (hn : (l1.map f).Nodup)
    (hs1 : l1.Pairwise (fun a b => f a ≤ f b)) (hs2 : l2.Pairwise (fun a b => f a ≤ f b)) :
    l1 = l2 := by
  have hn2 : (l2.map f).Nodup := ((hperm.map f).nodup_iff).mp hn
  exact @List.eq_of_perm_of_sorted α (fun a b => f a < f b)
    ⟨fun a b hab hba => absurd (Nat.lt_trans hab hba) (Nat.lt_irrefl _)⟩ _ _ hperm
    (pairwise_key_lt hs1 hn) (pairwise_key_lt hs2 hn2)

theorem sortTracks_sorted (l : List Track) : List.Sorted trackLe (sortTracks l) :=
  List.sorted_insertionSort trackLe l

theorem sortPlaylists_sorted (l : List Playlist) : List.Sorted playlistLe (sortPlaylists l) :=
  List.sorted_insertionSort playlistLe l

theorem sortTracks_perm (l : List Track) : (sortTracks l).Perm l :=
  List.perm_insertionSort trackLe l

theorem sortPlaylists_perm (l : List Playlist) : (sortPlaylists l).Perm l :=
  List.perm_insertionSort playlistLe l

theorem sortTracks_perm_eq {l1 l2 : List Track} (hperm : l1.Perm l2)
    (hn : (l1.map Track.id).Nodup) : sortTracks l1 = sortTracks l2 := by
  have hp1 := sortTracks_perm l1
  have hp2 := sortTracks_perm l2
  apply eq_of_perm_of_sorted_key (f := Track.id) ((hp1.trans hperm).trans hp2.symm)
  · exact ((hp1.map Track.id).nodup_iff).mpr hn
  · exact sortTracks_sorted l1
  · exact sortTracks_sorted l2

theorem sortPlaylists_perm_eq {l1 l2 : List Playlist} (hperm : l1.Perm l2)
    (hn : (l1.map Playlist.id).Nodup) : sortPlaylists l1 = sortPlaylists l2 := by
  have hp1 := sortPlaylists_perm l1
  have hp2 := sortPlaylists_perm l2
  apply eq_of_perm_of_sorted_key (f := Playlist.id) ((hp1.trans hperm).trans hp2.symm)
  · exact ((hp1.map Playlist.id).nodup_iff).mpr hn
  · exact sortPlaylists_sorted l1
  · exact sortPlaylists_sorted l2

/-- C8: `GET /tracks` and `GET /playlists` return all stored tracks
(resp. playlists) ordered by identifier ascending, independently of the
insertion order of the records: the returned lists are sorted
permutations of the stored tables, and two well-formed states whose
tables are permutations of each other produce identical responses. -/
theorem listings_sorted_insertion_independent (db1 db2 : DB)
    (hwf1 : db1.WF) :
    (getTracks db1).1 = ⟨200, .tracks (sortTracks db1.tracks)⟩ ∧
    (getPlaylists db1).1 = ⟨200, .playlists (sortPlaylists db1.playlists)⟩ ∧
    List.Sorted trackLe (sortTracks db1.tracks) ∧
    List.Sorted playlistLe (sortPlaylists db1.playlists) ∧
    (sortTracks db1.tracks).Perm db1.tracks ∧
    (sortPlaylists db1.playlists).Perm db1.playlists ∧
    (db1.tracks.Perm db2.tracks → (getTracks db1).1 = (getTracks db2).1) ∧
    (db1.playlists.Perm db2.playlists → (getPlaylists db1).1 = (getPlaylists db2).1) := by
  refine ⟨rfl, rfl, sortTracks_sorted _, sortPlaylists_sorted _,
    sortTracks_perm _, sortPlaylists_perm _, ?_, ?_⟩
  · intro hperm
    unfold getTracks
    rw [sortTracks_perm_eq hperm hwf1.1]
  · intro hperm
    unfold getPlaylists
    rw [sortPlaylists_perm_eq hperm hwf1.2.1]

/-- Witness for C8 at two concrete states whose tracks and playlists
are permutations of each other. -/
theorem listings_sorted_insertion_independent_witness :
    dbw.WF ∧
    ((getTracks dbw).1 = ⟨200, .tracks (sortTracks dbw.tracks)⟩ ∧
     (getPlaylists dbw).1 = ⟨200, .playlists (sortPlaylists dbw.playlists)⟩ ∧
     List.Sorted trackLe (sortTracks dbw.tracks) ∧
     List.Sorted playlistLe (sortPlaylists dbw.playlists) ∧
     (sortTracks dbw.tracks).Perm dbw.tracks ∧
     (sortPlaylists dbw.playlists).Perm dbw.playlists ∧
     (dbw.tracks.Perm (DB.mk [tw, tw2] [pw] [] 2 1).tracks →
       (getTracks dbw).1 = (getTracks (DB.mk [tw, tw2] [pw] [] 2 1)).1) ∧
     (dbw.playlists.Perm (DB.mk [tw, tw2] [pw] [] 2 1).playlists →
       (getPlaylists dbw).1 = (getPlaylists (DB.mk [tw, tw2] [pw] [] 2 1)).1)) :=
  ⟨by decide,
   listings_sorted_insertion_independent dbw (DB.mk [tw, tw2] [pw] [] 2 1) (by decide)⟩

/-- C10: every GET handler leaves the persisted state unchanged for
every input and every starting state. -/
theorem get_handlers_pure (s : String) (db : DB) :
    (getTracks db).2 = db ∧ (getTrackById s db).2 = db ∧ (getPlaylists db).2 = db ∧
    (getPlaylistById s db).2 = db ∧ (getPlaylistTracks s db).2 = db := by
  refine ⟨rfl, ?_, rfl, ?_, ?_⟩
  · unfold getTrackById
    split
    · rfl
    · split <;> rfl
  · unfold getPlaylistById
    split
    · rfl
    · split <;> rfl
  · unfold getPlaylistTracks
    split
    · rfl
    · split <;> rfl

/-- C9: whenever `POST /playlists/:id/tracks` does not answer 201, the
persisted state is unchanged. -/
theorem addTrack_non_201_state_unchanged (s : String) (body : Option TrackBody) (db : DB)
    (h : (postPlaylistTracks s body db).1.status ≠ 201) :
    (postPlaylistTracks s body db).2 = db := by
  revert h
  unfold postPlaylistTracks
  repeat' split
  all_goals intro h
  all_goals first
  | rfl
  | exact absurd rfl h

/-- Witness for C9: an invalid identifier string at a concrete state. -/
theorem addTrack_non_201_state_unchanged_witness :
    (postPlaylistTracks "abc" none dbw).1.status ≠ 201 ∧
    (postPlaylistTracks "abc" none dbw).2 = dbw :=
  ⟨by decide, addTrack_non_201_state_unchanged "abc" none dbw (by decide)⟩

/- ======================================================================
Join machinery: under the pair-uniqueness constraint the SQL join of a
playlist's associations with the track table is the filtered track
table.
====================================================================== -/

theorem pair_filter_length_le_one (L : List PlaylistTrack) (pid tid : Nat)
    (hnd : (L.map (fun a => (a.playlist_id, a.track_id))).Nodup) :
    (L.filter (fun a => a.playlist_id == pid && a.track_id == tid)).length ≤ 1 := by
  induction L with
  | nil => simp
  | cons a L ih =>
    simp only [List.map_cons, List.nodup_cons] at hnd
    obtain ⟨hna, hnd'⟩ := hnd
    cases hma : (a.playlist_id == pid && a.track_id == tid) with
    | true =>
      have hnil : L.filter (fun x => x.playlist_id == pid && x.track_id == tid) = [] := by
        rw [List.filter_eq_nil_iff]
        intro b hb hmb
        apply hna
        simp only [Bool.and_eq_true, beq_iff_eq] at hma hmb
        rw [List.mem_map]
        exact ⟨b, hb, by rw [hmb.1, hmb.2, hma.1, hma.2]⟩
      simp [List.filter_cons, hma, hnil]
    | false =>
      simp only [List.filter_cons, hma, Bool.false_eq_true, if_false]
      exact ih hnd'

theorem flatMap_assoc_eq_filter (ts : List Track) (L : List PlaylistTrack) (pid : Nat)
    (hnd : (L.map (fun a => (a.playlist_id, a.track_id))).Nodup) :
    (ts.flatMap (fun t =>
      (L.filter (fun a => a.playlist_id == pid && a.track_id == t.id)).map (fun _ => t))) =
    ts.filter (fun t => L.any (fun a => a.playlist_id == pid && a.track_id == t.id)) := by
  induction ts with
  | nil => rfl
  | cons t ts ih =>
    rw [List.flatMap_cons, ih]
    cases hex : (L.any (fun a => a.playlist_id == pid && a.track_id == t.id)) with
    | true =>
      have hne : L.filter (fun a => a.playlist_id == pid && a.track_id == t.id) ≠ [] := by
        rw [ne_eq, List.filter_eq_nil_iff]
        simp only [List.any_eq_true] at hex
        obtain ⟨a, ha, hma⟩ := hex
        intro hall
        exact hall a ha hma
      have hle := pair_filter_length_le_one L pid t.id hnd
      obtain ⟨x, hx⟩ :
          ∃ x, L.filter (fun a => a.playlist_id == pid && a.track_id == t.id) = [x] := by
        match hflt : L.filter (fun a => a.playlist_id == pid && a.track_id == t.id) with
        | [] => exact absurd hflt hne
        | [x] => exact ⟨x, hflt⟩
        | x :: y :: rest =>
          rw [hflt] at hle
          simp at hle
      simp [List.filter_cons, hex, hx]
    | false =>
      have hnil : L.filter (fun a => a.playlist_id == pid && a.track_id == t.id) = [] := by
        rw [List.filter_eq_nil_iff]
        rw [List.any_eq_false] at hex
        exact hex
      simp [List.filter_cons, hex, hnil]

theorem joinRows_eq (db : DB) (pid : Nat)
    (hnd : (db.playlists_tracks.map (fun a => (a.playlist_id, a.track_id))).Nodup) :
    joinRows db pid = sortTracks (db.tracks.filter (fun t => pairExists db pid t.id)) := by
  unfold joinRows pairExists
  rw [flatMap_assoc_eq_filter db.tracks db.playlists_tracks pid hnd]

/- ======================================================================
Row-lookup facts.
====================================================================== -/

theorem playlistRows_isEmpty_false {db : DB} {P : Playlist} (hP : P ∈ db.playlists) :
    (playlistRows db P.id).isEmpty = false := by
  rw [Bool.eq_false_iff, ne_eq, List.isEmpty_iff]
  intro hnil
  have hmem : P ∈ playlistRows db P.id := List.mem_filter.mpr ⟨hP, by simp⟩
  rw [hnil] at hmem
  exact List.not_mem_nil P hmem

theorem trackRows_isEmpty_false {db : DB} {T : Track} (hT : T ∈ db.tracks) :
    (trackRows db T.id).isEmpty = false := by
  rw [Bool.eq_false_iff, ne_eq, List.isEmpty_iff]
  intro hnil
  have hmem : T ∈ trackRows db T.id := List.mem_filter.mpr ⟨hT, by simp⟩
  rw [hnil] at hmem
  exact List.not_mem_nil T hmem

theorem pairCount_zero {db : DB} {pid tid : Nat} (h : pairExists db pid tid = false) :
    pairCount db pid tid = 0 := by
  unfold pairCount
  unfold pairExists at h
  rw [List.any_eq_false] at h
  rw [List.length_eq_zero, List.filter_eq_nil_iff]
  exact h

/- ======================================================================
Reduction of the add-track handler along its decision chain.
====================================================================== -/

theorem postPlaylistTracks_core (db : DB) (pid : Nat) (n : Int) (hpid : 0 < pid)
    (hn : ¬(n ≤ 0)) :
    postPlaylistTracks (jsNatToString pid) (some ⟨some (.int n)⟩) db =
      (if (playlistRows db pid).isEmpty then (sendError 404 "Playlist not found", db)
       else if (trackRows db n.toNat).isEmpty then (sendError 400 "Track does not exist", db)
       else match insertAssociation db pid n.toNat with
            | .error e => (classifyInsertFailure e, db)
            | .ok (a, db2) => (⟨201, .assoc a⟩, db2)) := by
  unfold postPlaylistTracks
  rw [isValidId_print hpid, parseIdNat_print hpid]
  simp only [Bool.not_true, Bool.false_eq_true, if_false, if_neg hn]

theorem addTrack_success (db : DB) (pid tid : Nat) (hpid : 0 < pid) (htid : 0 < tid)
    (hpl : (playlistRows db pid).isEmpty = false)
    (htr : (trackRows db tid).isEmpty = false)
    (hpair : pairExists db pid tid = false) :
    addTrackReq db pid tid =
      (⟨201, .assoc ⟨db.nextAssocId, pid, tid⟩⟩,
       { db with playlists_tracks := db.playlists_tracks ++ [⟨db.nextAssocId, pid, tid⟩],
                 nextAssocId := db.nextAssocId + 1 }) := by
  unfold addTrackReq
  rw [postPlaylistTracks_core db pid (tid : Int) hpid (by omega)]
  rw [Int.toNat_ofNat, hpl, htr]
  simp only [Bool.false_eq_true, if_false]
  unfold insertAssociation
  rw [hpair]
  simp

theorem addTrack_duplicate (db : DB) (pid tid : Nat) (hpid : 0 < pid) (htid : 0 < tid)
    (hpl : (playlistRows db pid).isEmpty = false)
    (htr : (trackRows db tid).isEmpty = false)
    (hpair : pairExists db pid tid = true) :
    addTrackReq db pid tid = (sendError 400 "Track is already in this playlist", db) := by
  unfold addTrackReq
  rw [postPlaylistTracks_core db pid (tid : Int) hpid (by omega)]
  rw [Int.toNat_ofNat, hpl, htr]
  simp only [Bool.false_eq_true, if_false]
  unfold insertAssociation
  rw [hpair]
  simp [classifyInsertFailure]

theorem addTrack_missing_track (db : DB) (pid tid : Nat) (hpid : 0 < pid) (htid : 0 < tid)
    (hpl : (playlistRows db pid).isEmpty = false)
    (htr : (trackRows db tid).isEmpty = true) :
    addTrackReq db pid tid = (sendError 400 "Track does not exist", db) := by
  unfold addTrackReq
  rw [postPlaylistTracks_core db pid (tid : Int) hpid (by omega)]
  rw [Int.toNat_ofNat, hpl, htr]
  simp

/- ======================================================================
Claim theorems.
====================================================================== -/

set_option maxRecDepth 4000 in
/-- C3 counterexample: the claimed acceptance of every well-formed
positive-integer string is false of the program.  The canonical
positive decimal string 9007199254740993 — one above 2 to the 53 —
rounds to 9007199254740992 under binary64 conversion, so the
validator's round-trip comparison fails and the string is rejected. -/
theorem validator_rejects_large_canonical :
    canonicalPosIntString "9007199254740993" ∧
    isValidIdFP "9007199254740993" = false :=
  ⟨by decide, by decide⟩

set_option maxRecDepth 4000 in
/-- C3 (amended): with binary64 rounding modelled, the validator still
accepts only canonical positive-integer decimal strings with no leading
zeros, sign, decimal point or whitespace, and it accepts every such
string whose value is below 2 to the 53 (in particular every identifier
a serial column can assign); the ill-formed strings "0", "-1", "1.5",
"abc", "01" and the empty string are rejected, and so are canonical
strings whose value is altered by rounding, such as 9007199254740993. -/
theorem validator_characterisation_bounded :
    (∀ s : String, isValidIdFP s = true → canonicalPosIntString s) ∧
    (∀ s : String, canonicalPosIntString s → decValue s.data < 2 ^ 53 →
      isValidIdFP s = true) ∧
    isValidIdFP "0" = false ∧ isValidIdFP "-1" = false ∧
    isValidIdFP "1.5" = false ∧ isValidIdFP "abc" = false ∧
    isValidIdFP "01" = false ∧ isValidIdFP "" = false ∧
    isValidIdFP "9007199254740993" = false :=
  ⟨fun _ h => isValidIdFP_accept_canonical h,
   fun _ hc hlt => isValidIdFP_canonical_small hc hlt,
   by decide, by decide, by decide, by decide, by decide, by decide, by decide⟩

/-- Witness for C3 at the concrete string 42. -/
theorem validator_characterisation_bounded_witness :
    canonicalPosIntString "42" ∧
    (canonicalPosIntString "42" ∧ decValue "42".data < 2 ^ 53 ∧
      isValidIdFP "42" = true) :=
  ⟨validator_characterisation_bounded.1 "42" (by decide),
   by decide, by decide,
   validator_characterisation_bounded.2.1 "42" (by decide) (by decide)⟩

/-- C1: starting from a well-formed state where playlist `P` and track
`T` exist and are not associated, the first add-track call answers 201
with a fresh association identifier, the identical second call answers
400 with the duplicate-membership message, and exactly one association
for the pair is persisted after both calls. -/
theorem addTrack_twice (db : DB) (P : Playlist) (T : Track) (hwf : db.WF)
    (hP : P ∈ db.playlists) (hT : T ∈ db.tracks)
    (hpair : pairExists db P.id T.id = false) :
    AddTrackTwiceOutcome db P.id T.id := by
  obtain ⟨hndT, hndP, hndPair, hposT, hposP, hidA, hidP, hnp, hna⟩ := hwf
  have hpid : 0 < P.id := hposP P hP
  have htid : 0 < T.id := hposT T hT
  have hpl := playlistRows_isEmpty_false hP
  have htr := trackRows_isEmpty_false hT
  have h1 := addTrack_success db P.id T.id hpid htid hpl htr hpair
  unfold AddTrackTwiceOutcome
  rw [h1]
  have hpair2 : pairExists
      { db with playlists_tracks := db.playlists_tracks ++ [⟨db.nextAssocId, P.id, T.id⟩],
                nextAssocId := db.nextAssocId + 1 } P.id T.id = true := by
    unfold pairExists
    simp
  have h2 := addTrack_duplicate
      { db with playlists_tracks := db.playlists_tracks ++ [⟨db.nextAssocId, P.id, T.id⟩],
                nextAssocId := db.nextAssocId + 1 } P.id T.id hpid htid hpl htr hpair2
  refine ⟨rfl, ?_, ?_, ?_⟩
  · intro a ha
    exact Nat.ne_of_lt (hidA a ha)
  · rw [h2]
  · rw [h2]
    have hcnt : pairCount db P.id T.id = 0 := pairCount_zero hpair
    unfold pairCount at hcnt ⊢
    simp only [List.filter_append, List.length_append, hcnt]
    simp

/-- Witness for C1 at a concrete state. -/
theorem addTrack_twice_witness :
    dbw.WF ∧ pw ∈ dbw.playlists ∧ tw ∈ dbw.tracks ∧
    pairExists dbw pw.id tw.id = false ∧ AddTrackTwiceOutcome dbw pw.id tw.id :=
  ⟨by decide, by decide, by decide, by decide,
   addTrack_twice dbw pw tw (by decide) (by decide) (by decide) (by decide)⟩

/-- C2: the storage failure raised by the association insert is
classified as a 400 client error exactly when it is the SQLSTATE-23505
uniqueness violation, which the insert raises exactly when the
(playlist, track) pair is already associated; every other storage error
code surfaces as the handler's 500 response. -/
theorem insert_failure_classification :
    (∀ e : DbError, (classifyInsertFailure e).status = 400 ↔ e.code = "23505") ∧
    (∀ e : DbError, e.code ≠ "23505" →
      classifyInsertFailure e =
        sendError 500 "Internal server error while adding track to playlist") ∧
    (∀ (db : DB) (pid tid : Nat) (e : DbError),
      insertAssociation db pid tid = .error e →
        e = ⟨"23505"⟩ ∧ pairExists db pid tid = true) ∧
    (∀ (db : DB) (pid tid : Nat),
      pairExists db pid tid = true → insertAssociation db pid tid = .error ⟨"23505"⟩) := by
  refine ⟨?_, ?_, ?_, ?_⟩
  · intro e
    unfold classifyInsertFailure
    by_cases h : e.code = "23505"
    · simp [h, sendError]
    · simp [h, sendError]
  · intro e h
    unfold classifyInsertFailure
    simp [h]
  · intro db pid tid e h
    unfold insertAssociation at h
    by_cases hp : pairExists db pid tid = true
    · rw [if_pos hp] at h
      refine ⟨?_, hp⟩
      injection h with h'
      exact h'.symm
    · rw [if_neg hp] at h
      simp at h
  · intro db pid tid hp
    unfold insertAssociation
    rw [if_pos hp]

/-- Witness for C2 at a concrete error code and state. -/
theorem insert_failure_classification_witness :
    (DbError.mk "08006").code ≠ "23505" ∧
    classifyInsertFailure ⟨"08006"⟩ =
      sendError 500 "Internal server error while adding track to playlist" ∧
    pairExists dbw2 1 1 = true ∧
    insertAssociation dbw2 1 1 = .error ⟨"23505"⟩ :=
  ⟨by decide, insert_failure_classification.2.1 ⟨"08006"⟩ (by decide), by decide,
   insert_failure_classification.2.2.2 dbw2 1 1 (by decide)⟩

/-- C4: adding a well-formed positive `trackId` that matches no track
to an existing playlist answers 400 with the track-does-not-exist
message, not 404. -/
theorem addTrack_nonexistent_track (db : DB) (P : Playlist) (tid : Nat) (hwf : db.WF)
    (hP : P ∈ db.playlists) (htid : 0 < tid) (htr : trackRows db tid = []) :
    addTrackReq db P.id tid = (sendError 400 "Track does not exist", db) ∧
    (addTrackReq db P.id tid).1.status ≠ 404 := by
  have hpid : 0 < P.id := hwf.2.2.2.2.1 P hP
  have hpl := playlistRows_isEmpty_false hP
  have htrE : (trackRows db tid).isEmpty = true := by
    rw [htr]
    rfl
  have h1 := addTrack_missing_track db P.id tid hpid htid hpl htrE
  refine ⟨h1, ?_⟩
  rw [h1]
  simp [sendError]

/-- Witness for C4 at a concrete state. -/
theorem addTrack_nonexistent_track_witness :
    dbw.WF ∧ pw ∈ dbw.playlists ∧ 0 < 5 ∧ trackRows dbw 5 = [] ∧
    (addTrackReq dbw pw.id 5 = (sendError 400 "Track does not exist", dbw) ∧
     (addTrackReq dbw pw.id 5).1.status ≠ 404) :=
  ⟨by decide, by decide, by decide, by decide,
   addTrack_nonexistent_track dbw pw 5 (by decide) (by decide) (by decide) (by decide)⟩

/-- C5: the add-track handler performs its checks in the fixed order
identifier format, body presence, `trackId` presence, `trackId`
validity, playlist existence, track existence; each failure answers its
own error with the state unchanged, and the validation failures are
independent of the persisted state. -/
theorem addTrack_check_order (s : String) (db : DB) : AddTrackChecksOutcome s db := by
  unfold AddTrackChecksOutcome
  refine ⟨?_, ?_, ?_, ?_, ?_, ?_, ?_, ?_⟩
  · intro body hinv
    unfold postPlaylistTracks
    rw [hinv]
    simp
  · intro hvalid
    unfold postPlaylistTracks
    rw [hvalid]
    simp
  · intro hvalid
    unfold postPlaylistTracks
    rw [hvalid]
    simp
  · intro hvalid
    unfold postPlaylistTracks
    rw [hvalid]
    simp
  · intro j hvalid hnint hnnull
    unfold postPlaylistTracks
    rw [hvalid]
    cases j with
    | str s2 => simp
    | int n => simp [Json.isInt] at hnint
    | nonIntNum => simp
    | bool b => simp
    | null => exact absurd rfl hnnull
    | arr => simp
    | obj => simp
  · intro n hvalid hle
    unfold postPlaylistTracks
    rw [hvalid]
    simp [hle]
  · intro n hvalid hpos hplT
    unfold postPlaylistTracks
    rw [hvalid, hplT]
    simp [show ¬(n ≤ 0) by omega]
  · intro n hvalid hpos hplF htrT
    unfold postPlaylistTracks
    rw [hvalid]
    simp only [Bool.not_true, Bool.false_eq_true, if_false]
    rw [hplF, htrT]
    simp [show ¬(n ≤ 0) by omega]

/-- Witness for C5 at a concrete identifier and state. -/
theorem addTrack_check_order_witness : AddTrackChecksOutcome "1" dbw :=
  addTrack_check_order "1" dbw

/-- C6: for a well-formed identifier, listing a playlist's tracks
answers 404 when the playlist is absent, otherwise 200 with exactly the
associated tracks ordered by track identifier ascending, and a playlist
with no associations yields 200 with an empty array. -/
theorem listPlaylistTracks_spec (db : DB) (pid : Nat) (hwf : db.WF) (hpid : 0 < pid) :
    ListTracksOutcome db pid := by
  have hvalid := isValidId_print hpid
  have hparse := parseIdNat_print hpid
  unfold ListTracksOutcome
  refine ⟨?_, ?_, sortTracks_sorted _, ?_⟩
  · intro hnone
    unfold getPlaylistTracks
    rw [hvalid, hparse, hnone]
    simp
  · intro hsome
    have hpl : (playlistRows db pid).isEmpty = false := by
      rw [Bool.eq_false_iff, ne_eq, List.isEmpty_iff]
      exact hsome
    unfold getPlaylistTracks
    rw [hvalid, hparse, hpl]
    simp only [Bool.not_true, Bool.false_eq_true, if_false]
    rw [joinRows_eq db pid hwf.2.2.1]
  · intro hsome hnoassoc
    have hpl : (playlistRows db pid).isEmpty = false := by
      rw [Bool.eq_false_iff, ne_eq, List.isEmpty_iff]
      exact hsome
    have hfilter : db.tracks.filter (fun t => pairExists db pid t.id) = [] := by
      rw [List.filter_eq_nil_iff]
      intro t ht hmem
      unfold pairExists at hmem
      rw [List.any_eq_true] at hmem
      obtain ⟨a, ha, hma⟩ := hmem
      simp only [Bool.and_eq_true, beq_iff_eq] at hma
      exact hnoassoc a ha hma.1
    unfold getPlaylistTracks
    rw [hvalid, hparse, hpl]
    simp only [Bool.not_true, Bool.false_eq_true, if_false]
    rw [joinRows_eq db pid hwf.2.2.1, hfilter]
    rfl

/-- Witness for C6 at a concrete state containing one association. -/
theorem listPlaylistTracks_spec_witness :
    dbw2.WF ∧ 0 < 1 ∧ ListTracksOutcome dbw2 1 :=
  ⟨by decide, by decide, listPlaylistTracks_spec dbw2 1 (by decide) (by decide)⟩

/-- C7: creating a playlist from a body whose name and description are
present non-empty strings always succeeds with 201, echoes both fields,
and assigns a fresh positive identifier not carried by any existing
playlist; no uniqueness condition on the name is involved. -/
theorem createPlaylist_spec (db : DB) (hwf : db.WF) (nm desc : String)
    (hn : nm ≠ "") (hd : desc ≠ "") :
    postPlaylists (some ⟨some (.str nm), some (.str desc)⟩) db =
      (⟨201, .playlist ⟨db.nextPlaylistId, nm, desc⟩⟩,
       { db with playlists := db.playlists ++ [⟨db.nextPlaylistId, nm, desc⟩],
                 nextPlaylistId := db.nextPlaylistId + 1 }) ∧
    0 < db.nextPlaylistId ∧
    (∀ p ∈ db.playlists, p.id ≠ db.nextPlaylistId) := by
  refine ⟨?_, hwf.2.2.2.2.2.2.2.1, fun p hp => Nat.ne_of_lt (hwf.2.2.2.2.2.2.1 p hp)⟩
  have hne : nm.isEmpty = false := by
    rw [Bool.eq_false_iff, ne_eq, String.isEmpty_iff]
    exact hn
  have hde : desc.isEmpty = false := by
    rw [Bool.eq_false_iff, ne_eq, String.isEmpty_iff]
    exact hd
  unfold postPlaylists
  simp [fieldTruthy, Json.truthy, isStrField, strField, hne, hde]

/-- Witness for C7 at a concrete state (including a name collision with
the existing playlist, which does not prevent creation). -/
theorem createPlaylist_spec_witness :
    dbw.WF ∧ "Favorites" ≠ "" ∧ "Another list" ≠ "" ∧
    (postPlaylists (some ⟨some (.str "Favorites"), some (.str "Another list")⟩) dbw =
      (⟨201, .playlist ⟨dbw.nextPlaylistId, "Favorites", "Another list"⟩⟩,
       { dbw with playlists := dbw.playlists ++ [⟨dbw.nextPlaylistId, "Favorites", "Another list"⟩],
                  nextPlaylistId := dbw.nextPlaylistId + 1 }) ∧
     0 < dbw.nextPlaylistId ∧
     (∀ p ∈ dbw.playlists, p.id ≠ dbw.nextPlaylistId)) :=
  ⟨by decide, by decide, by decide,
   createPlaylist_spec dbw (by decide) "Favorites" "Another list" (by decide) (by decide)⟩

end Jukebox
